import Mathlib

/-!
Verification development for the HD_OS-sessions orchestration core.

The definitions below are shallow embeddings of the Python sources:
  * `src/state/bridge.py`   — `StateLock._cleanup_stale_lock`, `StateLock._process_alive`,
                              `_atomic_write`
  * `src/state/persistence.py` — `_atomic_write_json`
  * `src/backlog_bridge.py` — `BacklogBridge.build_next_plan`, `get_group_status` and their
                              helper methods
  * `src/bin/backlog_bridge.py` — `_normalize_status`, `_is_success_status`,
                              `_update_plan_status` and the continuation-signal logic of
                              `_handle_subagent_stop`
  * `src/state/models.py`   — the `GroupStatus`, `ExecutionGroup`, `ExecutionPlan`,
                              `SessionIndexEntry` data model

Machine integers and timestamps are modelled as `Int` (all comparisons in the
source are order comparisons, so the float/int distinction is immaterial);
fallible operations return `Option`/`Except`; the ambient filesystem and the
process-liveness oracle are explicit parameters.
-/

namespace HDOS

/-! ### String primitives

Python's `str.strip()` / `str.lower()` are modelled structurally on the
character list (all strings the orchestration core strips or lowercases are
ASCII), so that concrete instances reduce inside the kernel. -/

/-- Python `str.strip()`: drop leading and trailing whitespace. -/
def pyStrip (s : String) : String :=
  ⟨((s.data.dropWhile Char.isWhitespace).reverse.dropWhile Char.isWhitespace).reverse⟩

/-- Python `str.lower()`: lowercase every character. -/
def pyLower (s : String) : String :=
  ⟨s.data.map Char.toLower⟩

/-- Lexicographic (code-point) comparison on character lists — the order
Python's `sorted` and tuple comparison use on strings. -/
def charListLe : List Char → List Char → Bool
  | [], _ => true
  | _ :: _, [] => false
  | a :: as, b :: bs =>
    if a.toNat < b.toNat then true
    else if b.toNat < a.toNat then false
    else charListLe as bs

/-- Python `a <= b` on strings. -/
def pyStrLe (a b : String) : Bool := charListLe a.data b.data

/-! ### Lock staleness model (`src/state/bridge.py`, `StateLock`)

`_cleanup_stale_lock` inspects the existing lock directory once per polling
iteration of `__enter__`.  We model one such inspection.  The observable inputs
are: whether the lock directory exists, the parsed content of
`lock_info.json` (absent/unreadable JSON is `none`; inside a readable record
the `timestamp` and `pid` fields may each independently fail Python's
`float(...)` / `int(...)` conversion, hence `Option Int`), the directory age
reported by `_lock_dir_age` (mtime based), the current wall-clock time, and the
process-liveness oracle backing `os.kill(pid, 0)` (`alive pid = true` also
covers the `PermissionError` branch, which `_process_alive` treats as alive).
The boolean result is whether the contender removes (`shutil.rmtree`) the lock
directory. -/

/-- Parsed content of a readable `lock_info.json`: the `timestamp` and `pid`
fields after Python's `float(...)`/`int(...)` conversion (`none` when the field
is missing or the conversion raises). -/
structure LockInfoDoc where
  timestamp : Option Int
  pid : Option Int

/-- One observation point of `StateLock._cleanup_stale_lock`: the lock
directory state, the info record (if readable), the directory age from
`_lock_dir_age`, the current time, and the liveness oracle for `os.kill`. -/
structure LockProbe where
  dirExists : Bool
  info : Option LockInfoDoc
  dirAge : Int
  now : Int
  alive : Int → Bool

/-- `StateLock._process_alive`: non-positive pids are reported dead; otherwise
defer to the `os.kill(pid, 0)` oracle (`PermissionError` counts as alive). -/
def processAlive (alive : Int → Bool) (pid : Int) : Bool :=
  if pid ≤ 0 then false else alive pid

/-- `StateLock._cleanup_stale_lock`: returns `true` exactly when the contender
removes the existing lock directory during this inspection. -/
def cleanupRemoves (staleTimeout : Int) (p : LockProbe) : Bool :=
  if !p.dirExists then false
  else
    match p.info with
    | none => decide (p.dirAge > staleTimeout)
    | some info =>
      match info.timestamp with
      | none => decide (p.dirAge > staleTimeout)
      | some ts =>
        if p.now - ts ≤ staleTimeout then false
        else
          match info.pid with
          | none => decide (p.dirAge > staleTimeout)
          | some pid =>
            if pid ≤ 0 then decide (p.dirAge > staleTimeout)
            else !(processAlive p.alive pid)

/-! ### Atomic write model (`src/state/persistence.py::_atomic_write_json`,
`src/state/bridge.py::_atomic_write`)

Both helpers perform the same sequence: `tempfile.mkstemp` in the destination
directory, serialize the payload into the temp file, `os.replace` the temp file
over the destination, and on any exception unlink the temp file and re-raise.
We model the destination and temp file of one directory, a payload already in
serialized form, and an explicit failure point (an exception raised by the
named step).  `Except` carries the resulting filesystem on both the error and
the success path. -/

/-- The two files an atomic-write call can touch: the destination and the
temporary file created by `mkstemp` (`none` = file absent). -/
structure WriteFS where
  dest : Option String
  temp : Option String
deriving DecidableEq

/-- Failure points of the atomic-write helpers: `mkstemp` raising before the
temp file exists, the serialization/write into the temp file raising (the temp
file then transiently holds partial content, but is unlinked before the error
propagates), and `os.replace` raising. -/
inductive WStep where
  | mkstemp
  | writeTemp
  | rename
deriving DecidableEq

/-- One run of `_atomic_write_json` / `_atomic_write` writing the serialized
`payload` with an optional injected failure at step `failAt`.  On an
exception the helper unlinks the temp file and re-raises (`Except.error` with
the resulting filesystem); on success `os.replace` atomically moves the temp
file over the destination. -/
def atomicWriteRun (payload : String) (failAt : Option WStep)
    (fs : WriteFS) : Except WriteFS WriteFS :=
  match failAt with
  | some .mkstemp => .error fs
  | some .writeTemp => .error { dest := fs.dest, temp := none }
  | some .rename => .error { dest := fs.dest, temp := none }
  | none =>
    let afterTemp : WriteFS := { dest := fs.dest, temp := some payload }
    .ok { dest := afterTemp.temp, temp := none }

/-- Destination content after a run, on either outcome. -/
def destAfter (r : Except WriteFS WriteFS) : Option String :=
  match r with
  | .ok fs => fs.dest
  | .error fs => fs.dest

/-! ### Data model (`src/state/models.py`) -/

/-- `GroupStatus` enum from `src/state/models.py`. -/
inductive GroupStatus where
  | pending
  | running
  | completed
  | blocked
  | failed
deriving DecidableEq, Repr

/-- `SessionIndexEntry` dataclass from `src/state/models.py`.  `status` defaults
to `"pending"`; `groupId`/`subagentType`/`updatedAt` are optional. -/
structure SessionIndexEntry where
  sessionId : String
  taskId : String
  createdAt : String
  updatedAt : Option String := none
  status : String := "pending"
  groupId : Option String := none
  subagentType : Option String := none
deriving DecidableEq, Repr

/-- `ExecutionGroup` dataclass from `src/state/models.py` (fields in source
order; `context_refs` modelled as an association list). -/
structure ExecutionGroup where
  groupId : String
  taskIds : List String
  parallel : Bool
  agentType : String := "default"
  sandbox : String := "read-only"
  bootstrapStage : Int := 1
  phase : Int := 1
  stage : Int := 1
  dependsOn : List String := []
  estimatedDuration : Option Int := none
  contextRefs : List (String × String) := []
  status : GroupStatus := .pending
  startedAt : Option String := none
  completedAt : Option String := none
deriving DecidableEq, Repr

/-- `ExecutionPlan` dataclass from `src/state/models.py`. -/
structure ExecutionPlan where
  groups : List ExecutionGroup := []
deriving DecidableEq, Repr

/-! ### Plan builder (`src/backlog_bridge.py`, `BacklogBridge.build_next_plan`)

`build_next_plan` consumes a snapshot of backlog tasks; each task is passed
through `extract_orchestration_metadata(strict=False)`, which returns either a
normalized `OrchestrationMetadata` record or `None` (missing/malformed
annotation — the task is skipped).  We take that per-task outcome as the input
snapshot: `List (Option OrchestrationMetadata)`, and identify each task's id
with the `task_id` recorded in its metadata (which the extractor sets from the
task's own metadata).  Python `dict`s keyed by strings preserve insertion
order; we model them as association lists with first-insertion (`setdefault`)
or last-wins (dict comprehension) semantics matching each use site.  The
`depends_on` accumulator is a Python `set`, whose iteration order is
unspecified; it is modelled as an insertion-ordered duplicate-free list, which
is sound because downstream code uses the resolved/unknown token lists only
through emptiness and membership tests. -/

/-- `TaskStatus` enum of the external `backlog_md` provider (the three
completion states the planner inspects). -/
inductive TaskStatus where
  | pending
  | inProgress
  | done
deriving DecidableEq, Repr

/-- `OrchestrationMetadata` dataclass from `src/backlog_bridge.py` (the
`skills` and `task_path` fields are carried by the source record but never read
by the planner or the status evaluator, and are omitted).  `depends_on` holds
the stripped, non-empty dependency tokens produced by `_coerce_string_tuple`. -/
structure OrchestrationMetadata where
  taskId : String
  stageGroupId : String
  bootstrapStage : Int
  phase : Int
  parallelGroup : Int
  agentType : String
  sandbox : String
  dependsOn : List String
  contextRef : Option String
  estimatedDurationSeconds : Option Int
  taskStatus : TaskStatus
deriving DecidableEq, Repr

/-- One bucket of the `groups` dict built inside `build_next_plan`: first-seen
scalar fields, appended `(task.id, meta)` pairs, and the unioned dependency
token set. -/
structure GroupSpec where
  groupId : String
  bootstrapStage : Int
  phase : Int
  parallelGroup : Int
  agentType : String
  sandbox : String
  tasks : List (String × OrchestrationMetadata)
  dependsOn : List String
deriving DecidableEq, Repr

/-- Set-union with insertion order: add each element of `b` not already present
(models `set.update`). -/
def unionTokens (a b : List String) : List String :=
  b.foldl (fun acc x => if acc.contains x then acc else acc ++ [x]) a

/-- One iteration of the bucketing loop: `groups.setdefault(...)` followed by
appending the task and unioning its dependency tokens. -/
def insertTask (gs : List GroupSpec) (meta : OrchestrationMetadata) : List GroupSpec :=
  if gs.any (fun s => s.groupId == meta.stageGroupId) then
    gs.map fun s =>
      if s.groupId == meta.stageGroupId then
        { s with tasks := s.tasks ++ [(meta.taskId, meta)],
                 dependsOn := unionTokens s.dependsOn meta.dependsOn }
      else s
  else
    gs ++ [{ groupId := meta.stageGroupId, bootstrapStage := meta.bootstrapStage,
             phase := meta.phase, parallelGroup := meta.parallelGroup,
             agentType := meta.agentType, sandbox := meta.sandbox,
             tasks := [(meta.taskId, meta)],
             dependsOn := unionTokens [] meta.dependsOn }]

/-- The `groups` dict of `build_next_plan`, bucketing extracted entries by
`stage_group_id` in insertion order. -/
def buildGroups (entries : List OrchestrationMetadata) : List GroupSpec :=
  entries.foldl insertTask []

/-- `metadata_by_task_id` lookup (dict comprehension: on duplicate task ids the
last entry wins). -/
def lookupMetaByTask (entries : List OrchestrationMetadata) (tid : String) :
    Option OrchestrationMetadata :=
  entries.reverse.find? (fun m => m.taskId == tid)

/-- `BacklogBridge._resolve_dependency_groups`: map each stripped non-empty
token to a group id (task id → that task's `stage_group_id`; known group id →
itself), collecting unresolvable tokens in the second component. -/
def resolveDependencyGroups (tokens : List String)
    (entries : List OrchestrationMetadata) (gs : List GroupSpec) :
    List String × List String :=
  tokens.foldl
    (fun acc tok =>
      let dep := pyStrip tok
      if dep == "" then acc
      else
        match lookupMetaByTask entries dep with
        | some m => (acc.1 ++ [m.stageGroupId], acc.2)
        | none =>
          if gs.any (fun s => s.groupId == dep) then (acc.1 ++ [dep], acc.2)
          else (acc.1, acc.2 ++ [dep]))
    ([], [])

/-- The admission pre-filters of `build_next_plan`: bucket matches the
requested bootstrap stage, is not already completed, and not all of its member
tasks are `done`. -/
def specKept (requested : Int) (completed : List String) (spec : GroupSpec) : Bool :=
  spec.bootstrapStage == requested &&
    !(completed.contains spec.groupId) &&
    !(spec.tasks.all fun p => p.2.taskStatus == .done)

/-- The dependency gate of `build_next_plan`: no unresolved token, and every
resolved dependency group already in the completed set. -/
def specDepsOk (completed : List String) (entries : List OrchestrationMetadata)
    (gs : List GroupSpec) (spec : GroupSpec) : Bool :=
  (resolveDependencyGroups spec.dependsOn entries gs).2.isEmpty &&
    (resolveDependencyGroups spec.dependsOn entries gs).1.all
      (fun dep => completed.contains dep)

/-- A bucket admitted into `ready_groups`. -/
def specReady (requested : Int) (completed : List String)
    (entries : List OrchestrationMetadata) (gs : List GroupSpec)
    (spec : GroupSpec) : Bool :=
  specKept requested completed spec && specDepsOk completed entries gs spec

/-- The `ready_groups` list of `build_next_plan` before the minimum-stage cut. -/
def readySpecs (requested : Int) (completed : List String)
    (entries : List OrchestrationMetadata) : List GroupSpec :=
  (buildGroups entries).filter
    (specReady requested completed entries (buildGroups entries))

/-- `min(spec["parallel_group"] for spec in ready_groups)` (0 on the empty
list, which `build_next_plan` never reaches). -/
def minParallelOf : List GroupSpec → Int
  | [] => 0
  | s :: rest => rest.foldl (fun m x => min m x.parallelGroup) s.parallelGroup

/-- Insert a group spec into a list sorted by the `(parallel_group, group_id)`
key (the `ready_groups.sort(key=...)` call; after the minimum-stage cut all
stages are equal and group ids are distinct dict keys, so the key is total). -/
def insertSpecSorted (x : GroupSpec) : List GroupSpec → List GroupSpec
  | [] => [x]
  | y :: ys =>
    if x.parallelGroup < y.parallelGroup ||
        (x.parallelGroup == y.parallelGroup && pyStrLe x.groupId y.groupId) then
      x :: y :: ys
    else
      y :: insertSpecSorted x ys

/-- Sort kept buckets by `(parallel_group, group_id)`. -/
def sortSpecs (l : List GroupSpec) : List GroupSpec :=
  l.foldr insertSpecSorted []

/-- Insert a `(task.id, meta)` pair into a list sorted by task id (the
`sorted((task.id, meta) for ...)` call; tuple comparison never reaches the
metadata component when task ids are distinct). -/
def insertTaskSorted (x : String × OrchestrationMetadata) :
    List (String × OrchestrationMetadata) → List (String × OrchestrationMetadata)
  | [] => [x]
  | y :: ys => if pyStrLe x.1 y.1 then x :: y :: ys else y :: insertTaskSorted x ys

/-- Sort a bucket's `(task.id, meta)` pairs by task id. -/
def sortTasksById (l : List (String × OrchestrationMetadata)) :
    List (String × OrchestrationMetadata) :=
  l.foldr insertTaskSorted []

/-- `sum(meta.estimated_duration_seconds or 0 for ...)`: fold the member
durations with unknown (`None`) contributing 0. -/
def durationSum (tasks : List (String × OrchestrationMetadata)) : Int :=
  tasks.foldl (fun acc p => acc + (p.2.estimatedDurationSeconds.getD 0)) 0

/-- Materialize one `ExecutionGroup` record from an admitted bucket (the loop
body over sorted `ready_groups`): members sorted by task id, `parallel` iff
more than one member, `estimated_duration = sum(...) or None` (Python `or`
maps a zero sum to `None`), `context_refs` keeps members whose `context_ref`
is truthy (non-`None`, non-empty), `depends_on` left empty on the emitted
record, and `status` = running iff any member task has left the `pending`
completion state. -/
def mkExecutionGroup (spec : GroupSpec) : ExecutionGroup :=
  let groupTasks := sortTasksById spec.tasks
  let taskIds := groupTasks.map (fun p => p.1)
  let contextRefs := groupTasks.filterMap fun p =>
    match p.2.contextRef with
    | some r => if r == "" then none else some (p.1, r)
    | none => none
  let estimatedTotal : Option Int :=
    if durationSum groupTasks == 0 then none else some (durationSum groupTasks)
  let hasProgress := spec.tasks.any fun p => p.2.taskStatus != .pending
  { groupId := spec.groupId,
    taskIds := taskIds,
    parallel := decide (taskIds.length > 1),
    agentType := spec.agentType,
    sandbox := spec.sandbox,
    bootstrapStage := spec.bootstrapStage,
    phase := spec.phase,
    stage := spec.parallelGroup,
    dependsOn := [],
    estimatedDuration := estimatedTotal,
    contextRefs := contextRefs,
    status := if hasProgress then .running else .pending,
    startedAt := none,
    completedAt := none }

/-- The current-plan reuse test of `build_next_plan`: the current plan exists
and contains a group at the requested bootstrap stage not yet completed
(`completed` already stripped). -/
def reusesCurrentPlan (currentPlan : Option ExecutionPlan)
    (completed : List String) (requested : Int) : Bool :=
  match currentPlan with
  | none => false
  | some p =>
    p.groups.any fun g =>
      g.bootstrapStage == requested && !(completed.contains g.groupId)

/-- The sorted minimum-stage buckets emitted as the fresh plan. -/
def planSpecs (requested : Int) (completed : List String)
    (entries : List OrchestrationMetadata) : List GroupSpec :=
  let ready := readySpecs requested completed entries
  sortSpecs (ready.filter fun s => s.parallelGroup == minParallelOf ready)

/-- `BacklogBridge.build_next_plan` over an explicit task snapshot (each
element is the `strict=False` extraction outcome for one snapshot task). -/
def buildNextPlan (currentPlan : Option ExecutionPlan)
    (completedGroups : List String) (bootstrapStage : Int)
    (snapshot : List (Option OrchestrationMetadata)) : Option ExecutionPlan :=
  let requested := bootstrapStage
  let completed := completedGroups.map pyStrip
  if reusesCurrentPlan currentPlan completed requested then currentPlan
  else
    let entries := snapshot.filterMap id
    if entries.isEmpty then none
    else if (readySpecs requested completed entries).isEmpty then none
    else
      some { groups := (planSpecs requested completed entries).map mkExecutionGroup }

/-! ### Group status evaluator (`src/backlog_bridge.py`, `get_group_status`) -/

/-- The status-classification vocabularies of `BacklogBridge`. -/
def completedStatuses : List String := ["completed", "complete", "done", "success", "succeeded"]

/-- Failed-like session statuses. -/
def failedStatuses : List String := ["failed", "error", "halted"]

/-- Running-like session statuses. -/
def runningStatuses : List String := ["running", "in_progress", "in progress", "active"]

/-- Pending-like session statuses. -/
def pendingStatuses : List String := ["pending", "queued", "waiting", "new", "scheduled"]

/-- `BacklogBridge._normalize_session_status`: `None` → pending; otherwise
trim, lowercase, look up the four vocabularies; everything unrecognized →
running. -/
def normalizeSessionStatus (value : Option String) : String :=
  match value with
  | none => "pending"
  | some s =>
    let normalized := pyLower (pyStrip s)
    if completedStatuses.contains normalized then "completed"
    else if failedStatuses.contains normalized then "failed"
    else if runningStatuses.contains normalized then "running"
    else if pendingStatuses.contains normalized then "pending"
    else "running"

/-- Python-`dict` assignment on an association list: update the existing key in
place, else append. -/
def assocSet (l : List (String × String)) (k v : String) : List (String × String) :=
  if l.any (fun p => p.1 == k) then
    l.map fun p => if p.1 == k then (k, v) else p
  else l ++ [(k, v)]

/-- `BacklogBridge._collect_session_statuses`: seed every member task with
`"pending"`, then overwrite (or add — entries whose task id is outside the
group's member list are added to the dict) from session entries whose
`group_id` equals the group's id, in entry order. -/
def collectSessionStatuses (group : ExecutionGroup)
    (entries : List SessionIndexEntry) : List (String × String) :=
  let init := group.taskIds.foldl (fun acc tid => assocSet acc tid "pending") []
  entries.foldl
    (fun acc e =>
      if e.groupId == some group.groupId then
        assocSet acc e.taskId (normalizeSessionStatus e.status)
      else acc)
    init

/-- The `plan_groups` dict lookup (`{group.group_id: group ...}`; on duplicate
ids the last group wins, mirroring dict construction). -/
def lookupGroup (plan : ExecutionPlan) (gid : String) : Option ExecutionGroup :=
  plan.groups.reverse.find? (fun g => g.groupId == gid)

/-- `BacklogBridge._compute_blocking_tasks`: walk the group's `depends_on`
(skipping empty ids after stripping), recording each normalized id; a
dependency absent from the plan blocks by its own id; a dependency group whose
collected statuses are not all `"completed"` (or, with no member tasks, whose
persisted status is not completed) contributes its member task ids (or its own
id when it has none).  Only session entries with a truthy `group_id` are
bucketed, and each dependency group sees just the entries bucketed under its
id. -/
def computeBlockingTasks (group : ExecutionGroup) (plan : ExecutionPlan)
    (entries : List SessionIndexEntry) : List String × List String :=
  group.dependsOn.foldl
    (fun acc dep =>
      let depId := pyStrip dep
      if depId == "" then acc
      else
        let normalized := acc.2 ++ [depId]
        match lookupGroup plan depId with
        | none => (acc.1 ++ [depId], normalized)
        | some depGroup =>
          let depEntries := entries.filter fun e =>
            !(e.groupId.getD "" == "") && e.groupId == some depId
          let depStatuses := collectSessionStatuses depGroup depEntries
          let allDone :=
            if !depGroup.taskIds.isEmpty then
              depStatuses.all fun p => p.2 == "completed"
            else
              depGroup.status == .completed
          if allDone then (acc.1, normalized)
          else
            (acc.1 ++ (if depGroup.taskIds.isEmpty then [depId] else depGroup.taskIds),
             normalized))
    ([], [])

/-- `GroupStatusSummary` dataclass from `src/backlog_bridge.py`. -/
structure GroupStatusSummary where
  status : GroupStatus
  reason : String
  pendingTasks : List String := []
  runningTasks : List String := []
  completedTasks : List String := []
  failedTasks : List String := []
  blockingTasks : List String := []
  dependsOn : List String := []
deriving DecidableEq, Repr

/-- Insert into a lexicographically sorted list of strings. -/
def insertStrSorted (x : String) : List String → List String
  | [] => [x]
  | y :: ys => if pyStrLe x y then x :: y :: ys else y :: insertStrSorted x ys

/-- Python `sorted` over strings. -/
def sortStrs (l : List String) : List String :=
  l.foldr insertStrSorted []

/-- `', '.join(sorted(set(l)))`. -/
def joinSortedSet (l : List String) : String :=
  String.intercalate ", " (sortStrs l.eraseDups)

/-- Task ids whose collected status equals `state`, sorted. -/
def tasksInState (statuses : List (String × String)) (state : String) : List String :=
  sortStrs ((statuses.filter fun p => p.2 == state).map fun p => p.1)

/-- `BacklogBridge.get_group_status`: errors for a blank or unknown group id;
blocked (with all normalized dependency ids in the reason) when any dependency
blocks; otherwise classify the group's own collected statuses with the source's
precedence chain. -/
def getGroupStatus (groupId : String) (sessionEntries : List SessionIndexEntry)
    (plan : ExecutionPlan) : Except String GroupStatusSummary :=
  let gid := pyStrip groupId
  if gid == "" then .error "group_id is required"
  else
    match lookupGroup plan gid with
    | none => .error ("Unknown execution group: " ++ gid)
    | some group =>
      let blockingPair := computeBlockingTasks group plan sessionEntries
      if !blockingPair.1.isEmpty then
        .ok { status := .blocked,
              reason := "waiting on dependency group(s): " ++ joinSortedSet blockingPair.2,
              blockingTasks := blockingPair.1,
              dependsOn := blockingPair.2 }
      else
        let statuses := collectSessionStatuses group sessionEntries
        let totalTasks := group.taskIds.length
        let failed := tasksInState statuses "failed"
        let completed := tasksInState statuses "completed"
        let running := tasksInState statuses "running"
        let pending := tasksInState statuses "pending"
        let result : GroupStatus × String :=
          if !failed.isEmpty then
            (.failed, toString failed.length ++ " task(s) failed")
          else if totalTasks == 0 then
            if group.status == .running then
              (.running, toString totalTasks ++ " task(s) scheduled")
            else
              (.pending, "no tasks scheduled")
          else if completed.length == totalTasks then
            (.completed, "all " ++ toString totalTasks ++ " task(s) completed")
          else if !running.isEmpty || !completed.isEmpty then
            (.running,
              toString (running.length + completed.length) ++ " of " ++
                toString totalTasks ++ " task(s) in progress")
          else if group.status == .running then
            (.running, toString totalTasks ++ " task(s) scheduled")
          else
            (.pending, "no sessions started")
        .ok { status := result.1, reason := result.2,
              pendingTasks := pending, runningTasks := running,
              completedTasks := completed, failedTasks := failed,
              dependsOn := blockingPair.2 }

/-! ### Subagent-stop coordination entrypoint (`src/bin/backlog_bridge.py`) -/

/-- `SUCCESS_STATUSES` from `src/bin/backlog_bridge.py`. -/
def successStatuses : List String := ["completed", "complete", "success", "succeeded", "ok"]

/-- `_normalize_status`: `(value or "").strip().lower()`, with the empty result
replaced by `"completed"`. -/
def normalizeStatus (value : Option String) : String :=
  let text := pyLower (pyStrip (value.getD ""))
  if text == "" then "completed" else text

/-- `_is_success_status`. -/
def isSuccessStatus (value : String) : Bool :=
  successStatuses.contains value

/-- `group.started_at or completed_at` (Python `or`: `None` and the empty
string both fall through to the default). -/
def startedAtOr (o : Option String) (d : String) : String :=
  match o with
  | some s => if s == "" then d else s
  | none => d

/-- `_update_plan_status`: rewrite the matching group's status and timestamps,
leaving the others; `ExecutionPlan(groups=updated or plan.groups)` keeps the
old groups when the rewritten list is empty. -/
def updatePlanStatus (plan : ExecutionPlan) (groupId : String)
    (newStatus : GroupStatus) (completedAt : String) : ExecutionPlan :=
  let updated := plan.groups.map fun g =>
    if g.groupId == groupId then
      { g with status := newStatus,
               startedAt := some (startedAtOr g.startedAt completedAt),
               completedAt := some completedAt }
    else g
  { groups := if updated.isEmpty then plan.groups else updated }

/-- The plan status `_handle_subagent_stop` writes for the finishing group:
completed on success, failed otherwise. -/
def stopGroupStatus (success : Bool) : GroupStatus :=
  if success then .completed else .failed

/-- The continuation signal `_handle_subagent_stop` returns, computed from the
success flag and the persisted plan's groups. -/
def stopSignal (success : Bool) (persistedGroups : List ExecutionGroup) : String :=
  if success then
    match persistedGroups with
    | g :: _ => "execute_plan:group-" ++ g.groupId
    | [] => "execute_plan:complete"
  else "execute_plan:halt"

/-! ### Concrete instances used by counterexamples and witnesses -/

/-- A single orchestrated task in group `g1` reporting an estimated duration of
0 seconds. -/
def zeroDurMeta : OrchestrationMetadata :=
  { taskId := "t1", stageGroupId := "g1", bootstrapStage := 1, phase := 1,
    parallelGroup := 1, agentType := "default", sandbox := "read-only",
    dependsOn := [], contextRef := none, estimatedDurationSeconds := some 0,
    taskStatus := .pending }

/-- Task `T1` in group `g1`, stage 1, no dependencies. -/
def metaT1 : OrchestrationMetadata :=
  { taskId := "T1", stageGroupId := "g1", bootstrapStage := 1, phase := 1,
    parallelGroup := 1, agentType := "default", sandbox := "read-only",
    dependsOn := [], contextRef := none, estimatedDurationSeconds := none,
    taskStatus := .pending }

/-- Task `T2` in group `g2`, stage 1, depending on group `g1`. -/
def metaT2 : OrchestrationMetadata :=
  { taskId := "T2", stageGroupId := "g2", bootstrapStage := 1, phase := 1,
    parallelGroup := 2, agentType := "default", sandbox := "read-only",
    dependsOn := ["g1"], contextRef := none, estimatedDurationSeconds := none,
    taskStatus := .pending }

/-- A two-task group used for the evaluator scenarios. -/
def groupB : ExecutionGroup :=
  { groupId := "gb", taskIds := ["t1", "t2"], parallel := true }

/-- Plan holding only `groupB`. -/
def planB : ExecutionPlan := { groups := [groupB] }

/-- Session entries: task `t1` failed, task `t2` completed, both in `gb`. -/
def entriesB : List SessionIndexEntry :=
  [ { sessionId := "s1", taskId := "t1", createdAt := "c1", status := "failed",
      groupId := some "gb" },
    { sessionId := "s2", taskId := "t2", createdAt := "c2", status := "completed",
      groupId := some "gb" } ]

/-- Group `g1` with a single member task `t1`. -/
def groupG1 : ExecutionGroup := { groupId := "g1", taskIds := ["t1"], parallel := false }

/-- Group `g2` depending on `g1` (satisfied below) and `g3` (absent from the
plan, hence blocking). -/
def groupG2 : ExecutionGroup :=
  { groupId := "g2", taskIds := ["t2"], parallel := false, dependsOn := ["g1", "g3"] }

/-- Plan holding `g1` and `g2`. -/
def planC : ExecutionPlan := { groups := [groupG1, groupG2] }

/-- Session entries marking `g1`'s only task completed, so the `g1` dependency
of `g2` is satisfied while `g3` still blocks. -/
def entriesC : List SessionIndexEntry :=
  [ { sessionId := "s1", taskId := "t1", createdAt := "c1", status := "completed",
      groupId := some "g1" } ]

/-- Snapshot of the two dependency-ordered tasks `T1`/`T2`. -/
def scenarioSnapshot : List (Option OrchestrationMetadata) := [some metaT1, some metaT2]

/-- The plan a fresh `build_next_plan` produces from `scenarioSnapshot` once
`g1` is completed. -/
def scenarioPlan2 : ExecutionPlan :=
  { groups := (planSpecs 1 (["g1"].map pyStrip)
      (scenarioSnapshot.filterMap id)).map mkExecutionGroup }

/-- Task `U1` in group `h1` at stage 1 with no dependencies. -/
def metaU1 : OrchestrationMetadata :=
  { taskId := "U1", stageGroupId := "h1", bootstrapStage := 1, phase := 1,
    parallelGroup := 1, agentType := "default", sandbox := "read-only",
    dependsOn := [], contextRef := none, estimatedDurationSeconds := none,
    taskStatus := .pending }

/-- Task `U2` in group `h2` at stage 2 with no dependencies. -/
def metaU2 : OrchestrationMetadata :=
  { taskId := "U2", stageGroupId := "h2", bootstrapStage := 1, phase := 1,
    parallelGroup := 2, agentType := "default", sandbox := "read-only",
    dependsOn := [], contextRef := none, estimatedDurationSeconds := none,
    taskStatus := .pending }

/-- Snapshot with two ready groups at stages 1 and 2. -/
def stageSnapshot : List (Option OrchestrationMetadata) := [some metaU1, some metaU2]

/-- The plan a fresh `build_next_plan` produces from `stageSnapshot` with
nothing completed: only the stage-1 group. -/
def stagePlan : ExecutionPlan :=
  { groups := (planSpecs 1 (([] : List String).map pyStrip)
      (stageSnapshot.filterMap id)).map mkExecutionGroup }

/-- Snapshot holding only the zero-duration task. -/
def zeroSnapshot : List (Option OrchestrationMetadata) := [some zeroDurMeta]

/-- The plan a fresh `build_next_plan` produces from `zeroSnapshot`. -/
def zeroPlan : ExecutionPlan :=
  { groups := (planSpecs 1 (([] : List String).map pyStrip)
      (zeroSnapshot.filterMap id)).map mkExecutionGroup }

end HDOS

/-! ## Theorems -/

namespace HDOS

/-- C1.  The claim states that a readable info record with a dead pid is
removed regardless of the record's age.  Counterexample: a lock directory with
a readable record aged 10s (stale timeout 30s) whose pid 5 is dead is NOT
removed — `_cleanup_stale_lock` returns before the liveness check whenever the
record age is within the stale timeout. -/
theorem cleanup_fresh_dead_pid_not_removed :
    (let p : LockProbe :=
      { dirExists := true, info := some { timestamp := some 100, pid := some 5 },
        dirAge := 10, now := 110, alive := fun _ => false }
     p.now - 100 = 10 ∧ processAlive p.alive 5 = false ∧
       cleanupRemoves 30 p = false) := by
  refine ⟨rfl, rfl, rfl⟩

/-- C1 (amended).  For a readable record with parsed timestamp and a parsed
positive pid that is not alive, the contender removes the lock if and only if
the record's age exceeds the stale timeout: liveness pre-emption applies only
to records already past the stale threshold, never earlier. -/
theorem cleanup_dead_pid_removed_iff_stale (staleTimeout : Int) (p : LockProbe)
    (ts pid : Int)
    (hdir : p.dirExists = true)
    (hinfo : p.info = some { timestamp := some ts, pid := some pid })
    (hpid : 0 < pid)
    (hdead : p.alive pid = false) :
    cleanupRemoves staleTimeout p = decide (p.now - ts > staleTimeout) := by
  unfold cleanupRemoves
  rw [hdir, hinfo]
  simp only [Bool.not_true, Bool.false_eq_true, if_false]
  by_cases hle : p.now - ts ≤ staleTimeout
  · simp [hle, decide_eq_false_iff_not, not_lt.mpr hle]
  · have hgt : staleTimeout < p.now - ts := lt_of_not_ge hle
    simp [hle, processAlive, not_le.mpr hpid, hdead, hgt]

/-- C1 (amended) witness: stale timeout 30, record aged 40 with dead pid 5 is
removed; the same inputs instantiate the amended theorem. -/
theorem cleanup_dead_pid_removed_iff_stale_witness :
    cleanupRemoves 30
      { dirExists := true, info := some { timestamp := some 100, pid := some 5 },
        dirAge := 40, now := 140, alive := fun _ => false } = decide ((140 : Int) - 100 > 30) :=
  cleanup_dead_pid_removed_iff_stale 30
    { dirExists := true, info := some { timestamp := some 100, pid := some 5 },
      dirAge := 40, now := 140, alive := fun _ => false }
    100 5 rfl rfl (by decide) rfl

/-- C4.  The claim states that a readable record older than the stale threshold
is removed regardless of liveness.  Counterexample: a record aged 100s (stale
timeout 30s) whose pid 5 is still alive is NOT removed — after the age check,
`_cleanup_stale_lock` only removes the lock when the recorded process is dead. -/
theorem cleanup_stale_live_pid_not_removed :
    (let p : LockProbe :=
      { dirExists := true, info := some { timestamp := some 100, pid := some 5 },
        dirAge := 100, now := 200, alive := fun _ => true }
     ((100 : Int) > 30) ∧ processAlive p.alive 5 = true ∧
       cleanupRemoves 30 p = false) := by
  refine ⟨by norm_num, rfl, rfl⟩

/-- C4 (amended).  For a readable record with parsed timestamp and parsed
positive pid whose age exceeds the stale threshold, the contender removes the
lock if and only if the recorded process is not alive: staleness by age alone
never removes a lock whose holder is still running. -/
theorem cleanup_stale_removed_iff_dead (staleTimeout : Int) (p : LockProbe)
    (ts pid : Int)
    (hdir : p.dirExists = true)
    (hinfo : p.info = some { timestamp := some ts, pid := some pid })
    (hpid : 0 < pid)
    (hstale : staleTimeout < p.now - ts) :
    cleanupRemoves staleTimeout p = !(p.alive pid) := by
  unfold cleanupRemoves
  rw [hdir, hinfo]
  have hle : ¬ (p.now - ts ≤ staleTimeout) := not_le.mpr hstale
  simp [hle, processAlive, not_le.mpr hpid]

/-- C4 (amended) witness: stale timeout 30, record aged 100 with live pid 5 is
kept; instantiates the amended theorem at concrete inputs. -/
theorem cleanup_stale_removed_iff_dead_witness :
    cleanupRemoves 30
      { dirExists := true, info := some { timestamp := some 100, pid := some 5 },
        dirAge := 100, now := 200, alive := fun _ => true } = !((fun _ => true) (5 : Int)) :=
  cleanup_stale_removed_iff_dead 30
    { dirExists := true, info := some { timestamp := some 100, pid := some 5 },
      dirAge := 100, now := 200, alive := fun _ => true }
    100 5 rfl rfl (by decide) (by decide)

/-- C5.  Atomic write: for every payload and prior filesystem, (a) a run that
raises at any step (mkstemp, the temp-file write, or the rename) reports the
error with the destination byte-identical to its prior content and the
temporary file discarded wherever it was created, and (b) a completed run
leaves the destination holding exactly the new serialized payload. -/
theorem atomicWrite_dest_intact_or_new (payload : String) (fs : WriteFS) :
    ((∀ s : WStep, ∃ fs2 : WriteFS,
        atomicWriteRun payload (some s) fs = .error fs2 ∧
          fs2.dest = fs.dest) ∧
      atomicWriteRun payload none fs =
        .ok { dest := some payload, temp := none }) := by
  constructor
  · intro s
    cases s with
    | mkstemp => exact ⟨fs, rfl, rfl⟩
    | writeTemp => exact ⟨{ dest := fs.dest, temp := none }, rfl, rfl⟩
    | rename => exact ⟨{ dest := fs.dest, temp := none }, rfl, rfl⟩
  · rfl

/-- C6.  For a known, non-blank group id: if any dependency blocks, the status
is blocked (blocked takes precedence over own-task states); if nothing blocks
and at least one member-task session status classifies as failed, the status is
failed and the reason is exactly `"<n> task(s) failed"` with `n` the number of
failed-classified tasks. -/
theorem getGroupStatus_failed_count (groupId : String)
    (entries : List SessionIndexEntry) (plan : ExecutionPlan)
    (group : ExecutionGroup)
    (hgid : (pyStrip groupId == "") = false)
    (hgroup : lookupGroup plan (pyStrip groupId) = some group) :
    (((computeBlockingTasks group plan entries).1.isEmpty = false →
        (getGroupStatus groupId entries plan).map (fun s => s.status) =
          .ok .blocked) ∧
      ((computeBlockingTasks group plan entries).1.isEmpty = true →
        (tasksInState (collectSessionStatuses group entries) "failed").isEmpty = false →
        (getGroupStatus groupId entries plan).map (fun s => (s.status, s.reason)) =
          .ok (.failed,
            toString (tasksInState (collectSessionStatuses group entries) "failed").length
              ++ " task(s) failed"))) := by
  constructor
  · intro hblk
    simp only [getGroupStatus, hgid, Bool.false_eq_true, if_false, hgroup, hblk,
      Bool.not_false, if_true, Except.map]
  · intro hblk hfail
    simp only [getGroupStatus, hgid, Bool.false_eq_true, if_false, hgroup, hblk,
      Bool.not_true, Bool.false_eq_true, if_false, hfail, Bool.not_false, if_true,
      Except.map]

/-- C6 witness: a group with one failed and one completed task yields status
failed with reason `"1 task(s) failed"`. -/
theorem getGroupStatus_failed_count_witness :
    (getGroupStatus "gb" entriesB planB).map (fun s => (s.status, s.reason)) =
      .ok (.failed, "1 task(s) failed") := by
  have h := (getGroupStatus_failed_count "gb" entriesB planB groupB
    (by decide) (by decide)).2 (by decide) (by decide)
  rw [h]
  rfl

/-- C9.  Counterexample to "the reason names exactly the unmet dependency
ids": group `g2` depends on `g1` (satisfied — its only task is completed, and
`g2` is blocked solely by `g3`) and on `g3`; the blocked reason nevertheless
names both `g1` and `g3`. -/
theorem blocked_reason_names_satisfied_dependency :
    ((getGroupStatus "g2" entriesC planC).toOption.map
        (fun s => (s.status, s.reason, s.blockingTasks)) =
      some (.blocked, "waiting on dependency group(s): g1, g3", ["g3"])) ∧
    (getGroupStatus "g1" entriesC planC).toOption.map (fun s => s.status) =
      some .completed := by
  exact ⟨by decide, by decide⟩

/-- C9 (amended).  When at least one dependency blocks, the status is blocked,
the blocking task/group ids are collected in the summary, and the reason names
all of the group's normalized dependency ids — deduplicated and sorted — not
only the unmet ones. -/
theorem getGroupStatus_blocked_reason_all_deps (groupId : String)
    (entries : List SessionIndexEntry) (plan : ExecutionPlan)
    (group : ExecutionGroup)
    (hgid : (pyStrip groupId == "") = false)
    (hgroup : lookupGroup plan (pyStrip groupId) = some group)
    (hblk : (computeBlockingTasks group plan entries).1.isEmpty = false) :
    getGroupStatus groupId entries plan =
      .ok { status := .blocked,
            reason := "waiting on dependency group(s): " ++
              joinSortedSet (computeBlockingTasks group plan entries).2,
            blockingTasks := (computeBlockingTasks group plan entries).1,
            dependsOn := (computeBlockingTasks group plan entries).2 } := by
  simp only [getGroupStatus, hgid, Bool.false_eq_true, if_false, hgroup, hblk,
    Bool.not_false, if_true]

/-- C9 (amended) witness: instantiating the amended theorem on the concrete
plan shows the reason listing both the satisfied `g1` and the unmet `g3`. -/
theorem getGroupStatus_blocked_reason_all_deps_witness :
    getGroupStatus "g2" entriesC planC =
      .ok { status := .blocked,
            reason := "waiting on dependency group(s): " ++
              joinSortedSet (computeBlockingTasks groupG2 planC entriesC).2,
            blockingTasks := (computeBlockingTasks groupG2 planC entriesC).1,
            dependsOn := (computeBlockingTasks groupG2 planC entriesC).2 } :=
  getGroupStatus_blocked_reason_all_deps "g2" entriesC planC groupG2
    (by decide) (by decide) (by decide)

/-- Helper: `String.length` distributes over append. -/
theorem strLength_append (a b : String) : (a ++ b).length = a.length + b.length := by
  cases a with
  | mk da =>
    cases b with
    | mk db => exact List.length_append da db

/-- C10.  An exit status that is `None`, empty, or whitespace-only normalizes
to `"completed"`, which classifies as success: the finishing group is marked
completed and the continuation signal is `execute_plan:group-<id>` (next group
ready) or `execute_plan:complete` (stage done), never `execute_plan:halt`. -/
theorem subagent_stop_empty_status_success (v : Option String)
    (h : pyStrip (v.getD "") = "") :
    (normalizeStatus v = "completed" ∧
      isSuccessStatus (normalizeStatus v) = true ∧
      stopGroupStatus (isSuccessStatus (normalizeStatus v)) = .completed ∧
      (∀ groups : List ExecutionGroup,
        stopSignal (isSuccessStatus (normalizeStatus v)) groups ≠
          "execute_plan:halt") ∧
      (∀ (g : ExecutionGroup) (rest : List ExecutionGroup),
        stopSignal (isSuccessStatus (normalizeStatus v)) (g :: rest) =
          "execute_plan:group-" ++ g.groupId) ∧
      stopSignal (isSuccessStatus (normalizeStatus v)) [] =
        "execute_plan:complete") := by
  have hnorm : normalizeStatus v = "completed" := by
    simp only [normalizeStatus, h]
    rfl
  have hsucc : isSuccessStatus (normalizeStatus v) = true := by
    rw [hnorm]; rfl
  refine ⟨hnorm, hsucc, by rw [hsucc]; rfl, ?_, ?_, by rw [hsucc]; rfl⟩
  · intro groups
    rw [hsucc]
    cases groups with
    | nil => intro hcontra; exact absurd hcontra (by decide)
    | cons g rest =>
      intro hcontra
      have hcontra2 : "execute_plan:group-" ++ g.groupId = "execute_plan:halt" :=
        hcontra
      have hlen := congrArg String.length hcontra2
      rw [strLength_append] at hlen
      have h19 : ("execute_plan:group-" : String).length = 19 := rfl
      have h17 : ("execute_plan:halt" : String).length = 17 := rfl
      omega
  · intro g rest
    rw [hsucc]
    rfl

/-- C10 witness: a whitespace-only exit status on an empty persisted plan
yields the `execute_plan:complete` signal. -/
theorem subagent_stop_empty_status_success_witness :
    normalizeStatus (some "  ") = "completed" ∧
      stopGroupStatus (isSuccessStatus (normalizeStatus (some "  "))) = .completed ∧
      stopSignal (isSuccessStatus (normalizeStatus (some "  "))) [] =
        "execute_plan:complete" := by
  have h := subagent_stop_empty_status_success (some "  ") (by decide)
  exact ⟨h.1, h.2.2.1, h.2.2.2.2.2⟩

/-- C8.  `build_next_plan` is deterministic: two calls with identical inputs
(current plan, completed groups, bootstrap stage, task snapshot) return
identical plans — same groups, same field values, same order. -/
theorem buildNextPlan_deterministic (cp1 cp2 : Option ExecutionPlan)
    (cg1 cg2 : List String) (bs1 bs2 : Int)
    (snap1 snap2 : List (Option OrchestrationMetadata))
    (hcp : cp1 = cp2) (hcg : cg1 = cg2) (hbs : bs1 = bs2)
    (hsnap : snap1 = snap2) :
    buildNextPlan cp1 cg1 bs1 snap1 = buildNextPlan cp2 cg2 bs2 snap2 := by
  subst hcp hcg hbs hsnap
  rfl

/-- C8 witness: the determinism theorem applied at a concrete input. -/
theorem buildNextPlan_deterministic_witness :
    buildNextPlan none [] 1 [some metaT1, some metaT2] =
      buildNextPlan none [] 1 [some metaT1, some metaT2] :=
  buildNextPlan_deterministic none none [] [] 1 1
    [some metaT1, some metaT2] [some metaT1, some metaT2] rfl rfl rfl rfl

/-- C7.  Counterexample to "estimated_duration is None exactly when no member
reports a duration": a fresh plan built over a single task that reports an
estimated duration of 0 seconds emits its group with `estimated_duration =
None` (`sum(...) or None` maps the zero sum to `None`). -/
theorem estimated_duration_none_despite_member_duration :
    zeroDurMeta.estimatedDurationSeconds = some 0 ∧
      (buildNextPlan none [] 1 [some zeroDurMeta]).map
          (fun p => p.groups.map fun g => (g.groupId, g.estimatedDuration)) =
        some [("g1", none)] :=
  ⟨rfl, rfl⟩

/-- Helper: membership after a sorted insertion comes from the inserted element
or the original list. -/
theorem mem_insertSpecSorted {y x : GroupSpec} {l : List GroupSpec}
    (h : y ∈ insertSpecSorted x l) : y = x ∨ y ∈ l := by
  induction l with
  | nil =>
    simp only [insertSpecSorted, List.mem_singleton] at h
    exact Or.inl h
  | cons z zs ih =>
    simp only [insertSpecSorted] at h
    split at h
    · simpa [List.mem_cons] using h
    · rcases List.mem_cons.mp h with h2 | h2
      · exact Or.inr (by simp [h2])
      · rcases ih h2 with h3 | h3
        · exact Or.inl h3
        · exact Or.inr (by simp [h3])

/-- Helper: the spec sort does not invent elements. -/
theorem mem_sortSpecs {y : GroupSpec} {l : List GroupSpec}
    (h : y ∈ sortSpecs l) : y ∈ l := by
  induction l with
  | nil =>
    simp only [sortSpecs, List.foldr_nil] at h
    exact absurd h (List.not_mem_nil y)
  | cons z zs ih =>
    have h2 : y ∈ insertSpecSorted z (sortSpecs zs) := h
    rcases mem_insertSpecSorted h2 with h3 | h3
    · simp [h3]
    · simp [ih h3]

/-- Helper: the running minimum of `parallel_group` never exceeds its seed. -/
theorem foldl_min_le_init (l : List GroupSpec) (a : Int) :
    l.foldl (fun m x => min m x.parallelGroup) a ≤ a := by
  induction l generalizing a with
  | nil => simp
  | cons x xs ih =>
    exact le_trans (ih (min a x.parallelGroup)) (min_le_left _ _)

/-- Helper: the running minimum of `parallel_group` bounds every element. -/
theorem foldl_min_le_mem (l : List GroupSpec) (a : Int) {x : GroupSpec}
    (h : x ∈ l) :
    l.foldl (fun m y => min m y.parallelGroup) a ≤ x.parallelGroup := by
  induction l generalizing a with
  | nil => cases h
  | cons z zs ih =>
    rcases List.mem_cons.mp h with h2 | h2
    · subst h2
      exact le_trans (foldl_min_le_init zs _) (min_le_right _ _)
    · exact ih _ h2

/-- Helper: `minParallelOf` is a lower bound of the ready buckets' stages. -/
theorem minParallelOf_le {l : List GroupSpec} {x : GroupSpec} (h : x ∈ l) :
    minParallelOf l ≤ x.parallelGroup := by
  cases l with
  | nil => cases h
  | cons s rest =>
    rcases List.mem_cons.mp h with h2 | h2
    · subst h2
      exact foldl_min_le_init rest _
    · exact foldl_min_le_mem rest _ h2

/-- Helper: sorted insertion of a task pair is a permutation of consing it. -/
theorem insertTaskSorted_perm (x : String × OrchestrationMetadata)
    (l : List (String × OrchestrationMetadata)) :
    (insertTaskSorted x l).Perm (x :: l) := by
  induction l with
  | nil => simp [insertTaskSorted]
  | cons y ys ih =>
    simp only [insertTaskSorted]
    split
    · exact List.Perm.refl _
    · exact (ih.cons y).trans (List.Perm.swap x y ys)

/-- Helper: the per-group task sort permutes the bucketed tasks. -/
theorem sortTasksById_perm (l : List (String × OrchestrationMetadata)) :
    (sortTasksById l).Perm l := by
  induction l with
  | nil => simp [sortTasksById]
  | cons x xs ih =>
    have h : sortTasksById (x :: xs) = insertTaskSorted x (sortTasksById xs) := rfl
    rw [h]
    exact (insertTaskSorted_perm x (sortTasksById xs)).trans (ih.cons x)

/-- Helper: the duration fold equals the seed plus the mapped sum. -/
theorem foldl_add_dur (l : List (String × OrchestrationMetadata)) (a : Int) :
    l.foldl (fun acc p => acc + p.2.estimatedDurationSeconds.getD 0) a =
      a + (l.map (fun p => p.2.estimatedDurationSeconds.getD 0)).sum := by
  induction l generalizing a with
  | nil => simp
  | cons x xs ih =>
    simp only [List.foldl_cons, List.map_cons, List.sum_cons, ih]
    ring

/-- Helper: sorting a bucket's tasks does not change the duration sum. -/
theorem durationSum_sortTasksById (l : List (String × OrchestrationMetadata)) :
    durationSum (sortTasksById l) = durationSum l := by
  have hperm := (sortTasksById_perm l).map
    (fun p => p.2.estimatedDurationSeconds.getD 0)
  have hsum := hperm.sum_eq
  simp only [durationSum, foldl_add_dur, zero_add]
  exact hsum

/-- Helper: a fresh (non-reusing) successful `build_next_plan` emits exactly
the sorted minimum-stage ready buckets. -/
theorem buildNextPlan_fresh_groups (cp : Option ExecutionPlan)
    (cg : List String) (bs : Int)
    (snapshot : List (Option OrchestrationMetadata)) (plan : ExecutionPlan)
    (hfresh : reusesCurrentPlan cp (cg.map pyStrip) bs = false)
    (hplan : buildNextPlan cp cg bs snapshot = some plan) :
    plan.groups =
      (planSpecs bs (cg.map pyStrip) (snapshot.filterMap id)).map
        mkExecutionGroup := by
  simp only [buildNextPlan, hfresh, Bool.false_eq_true, if_false] at hplan
  split at hplan
  · exact absurd hplan (by simp)
  · split at hplan
    · exact absurd hplan (by simp)
    · have h2 := Option.some.inj hplan
      subst h2
      rfl

/-- C2.  In a fresh (non-reusing) `build_next_plan` call, every emitted group
is one of the ready buckets, and every ready bucket passed the dependency
gate: no unresolved dependency token, and every resolved dependency group id
a member of the (stripped) completed set — so no group appears in the plan
unless all its resolved dependencies are completed. -/
theorem buildNextPlan_deps_in_completed (cp : Option ExecutionPlan)
    (cg : List String) (bs : Int)
    (snapshot : List (Option OrchestrationMetadata)) (plan : ExecutionPlan)
    (hfresh : reusesCurrentPlan cp (cg.map pyStrip) bs = false)
    (hplan : buildNextPlan cp cg bs snapshot = some plan) :
    ((∀ g ∈ plan.groups,
        g.groupId ∈ (readySpecs bs (cg.map pyStrip)
          (snapshot.filterMap id)).map GroupSpec.groupId) ∧
      (∀ spec ∈ readySpecs bs (cg.map pyStrip) (snapshot.filterMap id),
        (resolveDependencyGroups spec.dependsOn (snapshot.filterMap id)
            (buildGroups (snapshot.filterMap id))).2 = [] ∧
          ∀ dep ∈ (resolveDependencyGroups spec.dependsOn (snapshot.filterMap id)
              (buildGroups (snapshot.filterMap id))).1,
            (cg.map pyStrip).contains dep = true)) := by
  have hgroups := buildNextPlan_fresh_groups cp cg bs snapshot plan hfresh hplan
  constructor
  · intro g hg
    rw [hgroups] at hg
    obtain ⟨spec, hspec, hmk⟩ := List.mem_map.mp hg
    have hready : spec ∈ readySpecs bs (cg.map pyStrip) (snapshot.filterMap id) := by
      have hsorted := mem_sortSpecs (l :=
        (readySpecs bs (cg.map pyStrip) (snapshot.filterMap id)).filter
          (fun s => s.parallelGroup == minParallelOf
            (readySpecs bs (cg.map pyStrip) (snapshot.filterMap id)))) hspec
      exact (List.mem_filter.mp hsorted).1
    refine List.mem_map.mpr ⟨spec, hready, ?_⟩
    rw [← hmk]
    rfl
  · intro spec hspec
    have hfilter := List.mem_filter.mp hspec
    have hready : specReady bs (cg.map pyStrip) (snapshot.filterMap id)
        (buildGroups (snapshot.filterMap id)) spec = true := hfilter.2
    have hdeps : specDepsOk (cg.map pyStrip) (snapshot.filterMap id)
        (buildGroups (snapshot.filterMap id)) spec = true :=
      (Bool.and_eq_true .. ▸ hready).2
    have hsplit := Bool.and_eq_true .. ▸ hdeps
    constructor
    · exact List.isEmpty_iff.mp hsplit.1
    · intro dep hdep
      exact List.all_eq_true.mp hsplit.2 dep hdep

/-- C2 witness: with `g1` completed, the fresh plan over the two-task snapshot
emits exactly `g2`, whose bucket resolved its dependency to the completed
`g1`. -/
theorem buildNextPlan_deps_in_completed_witness :
    reusesCurrentPlan none (["g1"].map pyStrip) 1 = false ∧
      buildNextPlan none ["g1"] 1 scenarioSnapshot = some scenarioPlan2 ∧
      scenarioPlan2.groups.map ExecutionGroup.groupId = ["g2"] ∧
      (∀ g ∈ scenarioPlan2.groups,
        g.groupId ∈ (readySpecs 1 (["g1"].map pyStrip)
          (scenarioSnapshot.filterMap id)).map GroupSpec.groupId) := by
  refine ⟨by decide, by decide, by decide, ?_⟩
  exact (buildNextPlan_deps_in_completed none ["g1"] 1 scenarioSnapshot
    scenarioPlan2 (by decide) (by decide)).1

/-- C3.  In a fresh (non-reusing) `build_next_plan` call, every emitted group
carries the same `stage` — the minimum `parallel_group` over all ready buckets
— and that minimum bounds every ready bucket's stage from below, so a group at
a strictly higher stage never appears alongside a lower one. -/
theorem buildNextPlan_min_stage (cp : Option ExecutionPlan)
    (cg : List String) (bs : Int)
    (snapshot : List (Option OrchestrationMetadata)) (plan : ExecutionPlan)
    (hfresh : reusesCurrentPlan cp (cg.map pyStrip) bs = false)
    (hplan : buildNextPlan cp cg bs snapshot = some plan) :
    ((∀ g ∈ plan.groups,
        g.stage = minParallelOf (readySpecs bs (cg.map pyStrip)
          (snapshot.filterMap id))) ∧
      (∀ spec ∈ readySpecs bs (cg.map pyStrip) (snapshot.filterMap id),
        minParallelOf (readySpecs bs (cg.map pyStrip)
          (snapshot.filterMap id)) ≤ spec.parallelGroup)) := by
  have hgroups := buildNextPlan_fresh_groups cp cg bs snapshot plan hfresh hplan
  constructor
  · intro g hg
    rw [hgroups] at hg
    obtain ⟨spec, hspec, hmk⟩ := List.mem_map.mp hg
    have hsorted := mem_sortSpecs (l :=
      (readySpecs bs (cg.map pyStrip) (snapshot.filterMap id)).filter
        (fun s => s.parallelGroup == minParallelOf
          (readySpecs bs (cg.map pyStrip) (snapshot.filterMap id)))) hspec
    have hmin : spec.parallelGroup = minParallelOf
        (readySpecs bs (cg.map pyStrip) (snapshot.filterMap id)) := by
      have := (List.mem_filter.mp hsorted).2
      exact beq_iff_eq.mp this
    have hstage : g.stage = spec.parallelGroup := by
      rw [← hmk]
      rfl
    rw [hstage, hmin]
  · intro spec hspec
    exact minParallelOf_le hspec

/-- C3 witness: with ready groups `h1` (stage 1) and `h2` (stage 2), the fresh
plan holds exactly the stage-1 group, whose stage is the ready minimum 1. -/
theorem buildNextPlan_min_stage_witness :
    reusesCurrentPlan none (([] : List String).map pyStrip) 1 = false ∧
      buildNextPlan none [] 1 stageSnapshot = some stagePlan ∧
      stagePlan.groups.map ExecutionGroup.groupId = ["h1"] ∧
      (readySpecs 1 (([] : List String).map pyStrip)
        (stageSnapshot.filterMap id)).map GroupSpec.groupId = ["h1", "h2"] ∧
      (∀ g ∈ stagePlan.groups,
        g.stage = minParallelOf (readySpecs 1 (([] : List String).map pyStrip)
          (stageSnapshot.filterMap id))) := by
  refine ⟨by decide, by decide, by decide, by decide, ?_⟩
  exact (buildNextPlan_min_stage none [] 1 stageSnapshot stagePlan
    (by decide) (by decide)).1

/-- C7 (amended).  In a fresh (non-reusing) `build_next_plan` call, each
emitted group's `estimated_duration` is the sum of its members' known
durations (unknown durations contribute nothing to the sum), except that a
zero sum is emitted as `None` — so `estimated_duration` is `None` exactly when
the member durations sum to zero, which covers the no-member-reports case but
also members reporting a zero total. -/
theorem estimated_duration_sum_or_none (cp : Option ExecutionPlan)
    (cg : List String) (bs : Int)
    (snapshot : List (Option OrchestrationMetadata)) (plan : ExecutionPlan)
    (hfresh : reusesCurrentPlan cp (cg.map pyStrip) bs = false)
    (hplan : buildNextPlan cp cg bs snapshot = some plan) :
    ∀ g ∈ plan.groups,
      (g.groupId, g.estimatedDuration) ∈
        (planSpecs bs (cg.map pyStrip) (snapshot.filterMap id)).map
          (fun spec => (spec.groupId,
            if durationSum spec.tasks == 0 then none
            else some (durationSum spec.tasks))) := by
  have hgroups := buildNextPlan_fresh_groups cp cg bs snapshot plan hfresh hplan
  intro g hg
  rw [hgroups] at hg
  obtain ⟨spec, hspec, hmk⟩ := List.mem_map.mp hg
  refine List.mem_map.mpr ⟨spec, hspec, ?_⟩
  have hid : (mkExecutionGroup spec).groupId = spec.groupId := rfl
  have hdur : (mkExecutionGroup spec).estimatedDuration =
      (if durationSum (sortTasksById spec.tasks) == 0 then none
        else some (durationSum (sortTasksById spec.tasks))) := rfl
  rw [← hmk, hid, hdur, durationSum_sortTasksById]

/-- C7 (amended) witness: the zero-duration snapshot yields one group whose
duration pair `("g1", None)` matches the zero-sum rule. -/
theorem estimated_duration_sum_or_none_witness :
    reusesCurrentPlan none (([] : List String).map pyStrip) 1 = false ∧
      buildNextPlan none [] 1 zeroSnapshot = some zeroPlan ∧
      (∀ g ∈ zeroPlan.groups,
        (g.groupId, g.estimatedDuration) ∈
          (planSpecs 1 (([] : List String).map pyStrip)
            (zeroSnapshot.filterMap id)).map
            (fun spec => (spec.groupId,
              if durationSum spec.tasks == 0 then none
              else some (durationSum spec.tasks)))) := by
  refine ⟨by decide, by decide, ?_⟩
  exact estimated_duration_sum_or_none none [] 1 zeroSnapshot zeroPlan
    (by decide) (by decide)

end HDOS
